import Mathlib

/-!
Verification of the fprot Go client (package `fprot`) against its
natural-language specification.

The development shallowly embeds the protocol engine of the repository:
the response-line and HELP-line grammars (Go `regexp` patterns `responseRe`
and `helpRe`), `processResponse`, `fileCmd`, `readerCmd`, `dial`,
`NewClient` and `Info`.  Text is modelled as `List Char`; the Go byte/rune
distinction is immaterial for the claims checked here.  Machine integers
are modelled as `Nat` with the explicit `int64` overflow bound where the
code can overflow (`strconv.Atoi`).
-/

namespace Fprot

/-- Conversion of a string literal to its character list, the form in which
all wire text is handled in this development. -/
def chars (s : String) : List Char := s.toList

/-! ### Character classes of the two patterns

Go's `regexp` (RE2 syntax): `\s` is `[\t\n\f\r ]`, `\S` its complement,
`.` is any character except newline, `[0-9]` and `[^:]` are literal
classes. -/

/-- The character classes occurring in `responseRe` and `helpRe`. -/
inductive CCl where
  | digit
  | notColon
  | anyNoNL
  | wsp
  | nwsp
  deriving DecidableEq, Repr

/-- Membership test of a character in a class, as RE2 defines the class. -/
def CCl.test : CCl → Char → Bool
  | .digit, c => '0' ≤ c && c ≤ '9'
  | .notColon, c => c ≠ ':'
  | .anyNoNL, c => c ≠ '\n'
  | .wsp, c => c = ' ' || c = '\t' || c = '\n' || c = '\x0c' || c = '\r'
  | .nwsp, c => !(c = ' ' || c = '\t' || c = '\n' || c = '\x0c' || c = '\r')

/-- Abstract syntax of the (fragment of) RE2 used by the two patterns of
the source: literal characters, one-character classes, repetition of a
one-character class (`+`/`*`, greedy or lazy), capturing groups and
greedy optional `(?:...)?` / `(...)?`.  Neither source pattern repeats a
group or uses alternation, so this fragment is exact. -/
inductive RE where
  | lit (c : Char)
  | one (cl : CCl)
  | rep (cl : CCl) (min1 : Bool) (greedy : Bool)
  | grp (idx : Nat) (es : List RE)
  | opt (es : List RE)

/-- Submatch captures: both source patterns have capture groups 1–5.
`none` is Go's nil submatch (an optional group that did not participate);
`string(nil)` is `""` on the Go side, mirrored by `capStr`. -/
structure Caps where
  c1 : Option (List Char) := none
  c2 : Option (List Char) := none
  c3 : Option (List Char) := none
  c4 : Option (List Char) := none
  c5 : Option (List Char) := none
  deriving DecidableEq, Repr

def Caps.set (caps : Caps) (idx : Nat) (v : List Char) : Caps :=
  match idx with
  | 1 => { caps with c1 := some v }
  | 2 => { caps with c2 := some v }
  | 3 => { caps with c3 := some v }
  | 4 => { caps with c4 := some v }
  | 5 => { caps with c5 := some v }
  | _ => caps

def Caps.get (caps : Caps) (idx : Nat) : Option (List Char) :=
  match idx with
  | 1 => caps.c1
  | 2 => caps.c2
  | 3 => caps.c3
  | 4 => caps.c4
  | 5 => caps.c5
  | _ => none

/-- Go renders a nil submatch as the empty string (`string(mb[k])`). -/
def capStr (caps : Caps) (idx : Nat) : List Char := (caps.get idx).getD []

/-- First alternative wins; the second is tried only on definite failure.
`none` (fuel exhaustion) is propagated.  This is the priority order of a
leftmost-first (backtracking, Perl-style) search, which is the submatch
semantics Go's `regexp` package guarantees. -/
def alt (a : Option (Option Caps)) (b : Unit → Option (Option Caps)) :
    Option (Option Caps) :=
  match a with
  | some (some c) => some (some c)
  | some none => b ()
  | none => none

/-- The backtracking matcher, continuation-passing, leftmost-first.
Result: `some (some caps)` = match, `some none` = definite non-match,
`none` = fuel exhausted.  The fuel only bounds the *depth* of the
recursion (sibling alternatives each receive the same decremented fuel):
along any chain of nested calls, every step either consumes an input
character or strictly shrinks the flat size of the pending pattern
(groups and optionals unfold their bodies, repetitions consume), so depth
never exceeds `flat pattern size + s.length + 1`.  Both source patterns
have flat size below 400, hence the fuel `s.length + 400` used by
`reMatch` can never be exhausted; exhaustion is nevertheless mapped to
non-match to keep the function total. -/
def mt (fuel : Nat) (es : List RE) (s : List Char) (caps : Caps)
    (k : List Char → Caps → Option (Option Caps)) : Option (Option Caps) :=
  match fuel with
  | 0 => none
  | fuel + 1 =>
    match es with
    | [] => k s caps
    | .lit c :: rest =>
      match s with
      | c' :: s' => if c' = c then mt fuel rest s' caps k else some none
      | [] => some none
    | .one cl :: rest =>
      match s with
      | c' :: s' => if cl.test c' then mt fuel rest s' caps k else some none
      | [] => some none
    | .rep cl min1 greedy :: rest =>
      let consume : Unit → Option (Option Caps) := fun _ =>
        match s with
        | c' :: s' =>
          if cl.test c' then mt fuel (.rep cl false greedy :: rest) s' caps k
          else some none
        | [] => some none
      if min1 then consume ()
      else if greedy then alt (consume ()) (fun _ => mt fuel rest s caps k)
      else alt (mt fuel rest s caps k) consume
    | .grp idx es' :: rest =>
      mt fuel es' s caps (fun s2 caps2 =>
        mt fuel rest s2 (caps2.set idx (s.take (s.length - s2.length))) k)
    | .opt es' :: rest =>
      alt (mt fuel (es' ++ rest) s caps k) (fun _ => mt fuel rest s caps k)

/-- Whole-string anchored match (`^...$` with Go's default flags: `$` is
end of text), as used by `FindSubmatch`/`FindStringSubmatch` on the two
anchored source patterns. -/
def reMatch (es : List RE) (s : List Char) : Option Caps :=
  match mt (s.length + 400) es s {}
      (fun s' caps => if s' = [] then some (some caps) else some none) with
  | some r => r
  | none => none

/-! ### The two source patterns

`responseRe`:
`^(?P<statuscode>[0-9]+)\s<(?P<status>[^:]+)(?::\s+(?P<signature>.+?))?>\s?(?P<filename>.+?)?(?:->(?P<aname>.*))?$`

`helpRe`:
`^FPSCAND:(?P<version>\S+)\s*ENGINE:(?P<engine>\S+)\s*PROTOCOL:(?P<protocol>\S+)\s*SIGNATURE:(?P<sig>\S+)\s*UPTIME:(?P<uptime>\S+)$` -/

/-- A run of literal characters. -/
def lits (s : String) : List RE := s.toList.map RE.lit

/-- AST of the source pattern `responseRe` (groups numbered 1–5:
statuscode, status, signature, filename, aname). -/
def responseRe : List RE :=
  [.grp 1 [.rep .digit true true],
   .one .wsp,
   .lit '<',
   .grp 2 [.rep .notColon true true],
   .opt [.lit ':', .rep .wsp true true, .grp 3 [.rep .anyNoNL true false]],
   .lit '>',
   .opt [.one .wsp],
   .opt [.grp 4 [.rep .anyNoNL true false]],
   .opt [.lit '-', .lit '>', .grp 5 [.rep .anyNoNL false true]]]

/-- AST of the source pattern `helpRe` (groups numbered 1–5: version,
engine, protocol, sig, uptime). -/
def helpRe : List RE :=
  lits "FPSCAND:" ++
  [RE.grp 1 [.rep .nwsp true true], .rep .wsp false true] ++
  lits "ENGINE:" ++
  [RE.grp 2 [.rep .nwsp true true], .rep .wsp false true] ++
  lits "PROTOCOL:" ++
  [RE.grp 3 [.rep .nwsp true true], .rep .wsp false true] ++
  lits "SIGNATURE:" ++
  [RE.grp 4 [.rep .nwsp true true], .rep .wsp false true] ++
  lits "UPTIME:" ++
  [RE.grp 5 [.rep .nwsp true true]]

/-! ### Status codes and errors -/

/-! The `StatusCode` bitmask constants of the source (`iota`-style powers
of two with `NoMatch = 0`).  The Go type is `int`; all values built by the
parser are non-negative, so `Nat` is used. -/
namespace SC

def NoMatch : Nat := 0
def Infected : Nat := 1
def HeuristicMatch : Nat := 2
def UserError : Nat := 4
def RestrictionError : Nat := 8
def SystemError : Nat := 16
def InternalError : Nat := 32
def SkipError : Nat := 64
def DisinfectError : Nat := 128

end SC

/-- Mask `UserError|RestrictionError|SystemError|InternalError|SkipError|DisinfectError`
tested at the soft-error aggregation line of `processResponse`. -/
def softMask : Nat :=
  SC.UserError ||| SC.RestrictionError ||| SC.SystemError |||
  SC.InternalError ||| SC.SkipError ||| SC.DisinfectError

/-- Mask `Infected|DisinfectError|HeuristicMatch` tested to set the
derived `Infected` flag. -/
def infMask : Nat := SC.Infected ||| SC.DisinfectError ||| SC.HeuristicMatch

/-- The distinct error values the embedded operations can return,
mirroring the `fmt.Errorf` sites and the abstract I/O failures. -/
inductive GoErr where
  /-- Error "Invalid Server Response: %s" from `processResponse`. -/
  | invalidResponse (raw : List Char)
  /-- Failure of `strconv.Atoi` (int64 overflow of the digit token). -/
  | atoiOverflow
  /-- Error "ERROR: %s" with the status phrase, the soft-error summary. -/
  | softError (status : List Char)
  /-- Error "Atleast one path to scan is required" from `fileCmd`. -/
  | pathRequired
  /-- Error "The supplied address is invalid" from `NewClient`. -/
  | invalidAddress
  /-- Error "The content length could not be determined" from `readerCmd`. -/
  | contentLength
  /-- Error "Invalid Server Response: %s" from `Info`. -/
  | invalidHelp (raw : List Char)
  /-- Abstract dial (connection) failure. -/
  | dialFail
  /-- Abstract `os.Open`/`Stat` failure inside `streamCmd`. -/
  | openFail
  deriving DecidableEq, Repr

/-- The `Response` struct of the source.  Text fields are `List Char`;
`StatusCode` is the parsed bitmask. -/
structure Response where
  Filename : List Char
  ArchiveItem : List Char
  Signature : List Char
  Status : List Char
  StatusCode : Nat
  Infected : Bool
  Raw : List Char
  deriving DecidableEq, Repr

/-- Constant `math.MaxInt64`, the bound above which `strconv.Atoi` fails
on a 64-bit platform. -/
def maxInt64 : Nat := 9223372036854775807

/-- Embedding of `strconv.Atoi` restricted to the strings it receives here: the first
capture of `responseRe` is a non-empty digit run, so the only failure
mode is int64 overflow. -/
def atoi (ds : List Char) : Except Unit Nat :=
  let v := ds.foldl (fun a c => a * 10 + (c.toNat - 48)) 0
  if v ≤ maxInt64 then .ok v else .error ()

/-- Embedding of `bytes.TrimRight(lineb, "\n")`: remove every trailing
newline. -/
def trimNl (l : List Char) : List Char :=
  (l.reverse.dropWhile (· = '\n')).reverse

/-- Why a single line fails to produce a `Response`. -/
inductive LineFail where
  /-- Case where `responseRe.FindSubmatch` returned nil. -/
  | nomatch
  /-- Case where `strconv.Atoi` on the status-code token failed. -/
  | badAtoi
  deriving DecidableEq, Repr

/-- The per-line body of the `processResponse` loop: regex match, then
`Atoi` of capture 1, then the `Response` construction.  The Go code
stores `&rs` into the slice *before* executing
`if rs.StatusCode&(Infected|DisinfectError|HeuristicMatch) != 0 { rs.Infected = true }`,
but the slice holds a pointer to `rs`, so the stored value carries the
final `Infected`; the embedding therefore applies the update before
insertion, which yields the identical stored value.  `Raw` is `mb[0]`,
the whole match, i.e. the whole trimmed line (the pattern is anchored at
both ends). -/
def lineVerdict (lineb : List Char) : Except LineFail Response :=
  match reMatch responseRe (trimNl lineb) with
  | none => .error .nomatch
  | some caps =>
    match atoi (capStr caps 1) with
    | .error _ => .error .badAtoi
    | .ok sc =>
      let rs : Response :=
        { StatusCode := sc
          Status := capStr caps 2
          Signature := capStr caps 3
          Filename := capStr caps 4
          ArchiveItem := capStr caps 5
          Raw := trimNl lineb
          Infected := false }
      .ok (if sc &&& infMask ≠ 0 then { rs with Infected := true } else rs)

/-- The loop of `processResponse`, with the mutable state made explicit:
`r` (the `[]*Response`, whose entries may be Go nil = `none`), `seen` and
`gerr`.  The `input` models the successive successful `ReadBytes('\n')`
results; its exhaustion is the `io.EOF` case, which breaks out with
`err = nil`.  A regex non-match sets `err` and breaks — but the
`err = gerr` assignment after the loop overwrites that error, so the
branch returns `(r, gerr)`.  An `Atoi` failure returns immediately with
its error.  A successfully parsed response is stored (`r[0]` on the first
one, append afterwards) and the first soft-error response latches
`gerr`. -/
def prLoop : Nat → List (List Char) → List (Option Response) → Bool →
    Option GoErr → List (Option Response) × Option GoErr
  | 0, _, r, _, gerr => (r, gerr)
  | _ + 1, [], r, _, gerr => (r, gerr)
  | n + 1, lineb :: rest, r, seen, gerr =>
    match lineVerdict lineb with
    | .error .nomatch => (r, gerr)
    | .error .badAtoi => (r, some .atoiOverflow)
    | .ok rs =>
      let r' := if seen then r ++ [some rs] else r.set 0 (some rs)
      let gerr' :=
        if rs.StatusCode &&& softMask ≠ 0 then
          (if gerr = none then some (.softError rs.Status) else gerr)
        else gerr
      prLoop n rest r' true gerr'

/-- Embedding of `processResponse(n)`: the result slice starts as
`make([]*Response, 1)`, i.e. `[none]`. -/
def processResponse (n : Nat) (input : List (List Char)) :
    List (Option Response) × Option GoErr :=
  prLoop n input [none] false none

/-! ### Commands and wire encoding -/

/-- The `Command` enum (Go `int` constants `Help = 1` … `Quit = 6`). -/
inductive Command where
  | Help
  | ScanFile
  | ScanStream
  | Queue
  | ScanQueue
  | Quit
  deriving DecidableEq, Repr

/-- Wire text of each command (the `Command.String` table). -/
def Command.wire : Command → List Char
  | .Help => chars "HELP"
  | .ScanFile => chars "SCAN FILE"
  | .ScanStream => chars "SCAN STREAM"
  | .Queue => chars "QUEUE"
  | .ScanQueue => chars "SCAN"
  | .Quit => chars "QUIT"

/-- Network activity visible on the connection: a dial attempt sequence
and written byte runs.  `textproto.PrintfLine` terminates its line with
CRLF. -/
inductive NetEv where
  | dial
  | write (data : List Char)
  deriving DecidableEq, Repr

/-- CRLF-terminated line write of `tc.PrintfLine`. -/
def printfLine (l : List Char) : NetEv := .write (l ++ chars "\r\n")

/-- Decimal rendering of a `%d` argument. -/
def decimal (n : Nat) : List Char := (Nat.repr n).toList

/-- Writes of `fileScan(n, p...)`: with more than one path the batch is
framed by `QUEUE` … `SCAN`, each path sent as `SCAN FILE <fn>`;
a single path is sent as one `SCAN FILE <p[0]>` line.  (The abstract
connection never fails a write, so the embedded `fileScan` cannot.) -/
def fileScanEv (p : List String) : List NetEv :=
  if p.length > 1 then
    [printfLine Command.Queue.wire] ++
    p.map (fun fn => printfLine (Command.ScanFile.wire ++ ' ' :: chars fn)) ++
    [printfLine Command.ScanQueue.wire]
  else
    [printfLine (Command.ScanFile.wire ++ ' ' :: (p.headD "").toList)]

/-- Filesystem oracle for `streamCmd`: the contents of a path, or `none`
when `os.Open` (or the subsequent `Stat`) fails. -/
def FileOracle := String → Option (List Char)

/-- Embedding of `streamCmd(fn)`: open and stat the file, write
`SCAN STREAM <fn> SIZE <size>` and then the raw contents. -/
def streamCmd (files : FileOracle) (fn : String) :
    Except GoErr (List NetEv) :=
  match files fn with
  | none => .error .openFail
  | some data =>
    .ok [printfLine (Command.ScanStream.wire ++ ' ' :: fn.toList ++
           chars " SIZE " ++ decimal data.length),
         .write data]

/-- The per-path loop inside `streamScan` for the batch case: a failing
`streamCmd` aborts immediately (writes already emitted stay on the
wire). -/
def streamLoop (files : FileOracle) : List String →
    List NetEv × Option GoErr
  | [] => ([], none)
  | fn :: rest =>
    match streamCmd files fn with
    | .error e => ([], some e)
    | .ok evs =>
      let (evs', err) := streamLoop files rest
      (evs ++ evs', err)

/-- Embedding of `streamScan(n, p...)`: `QUEUE` framing and the
terminating `SCAN` for a batch, a bare `streamCmd` for a single path. -/
def streamScanEv (files : FileOracle) (p : List String) :
    List NetEv × Option GoErr :=
  if p.length > 1 then
    let (evs, err) := streamLoop files p
    match err with
    | some e => ([printfLine Command.Queue.wire] ++ evs, some e)
    | none => ([printfLine Command.Queue.wire] ++ evs ++
               [printfLine Command.ScanQueue.wire], none)
  else
    match streamCmd files (p.headD "") with
    | .error e => ([], some e)
    | .ok evs => (evs, none)

/-- Observable outcome of one client call: the returned slice, the
returned error and the network events the call produced. -/
structure CallResult where
  responses : List (Option Response)
  err : Option GoErr
  events : List NetEv
  deriving DecidableEq, Repr

/-- Embedding of `fileCmd(cmd, p...)` on a fresh client (`c.tc == nil`,
so the call dials).  The argument check `n == 0 || p[0] == ""` precedes
everything else; only when it passes does the client dial and write.
`dialErr` abstracts the outcome of `dial()`; `input` is the stream of
response lines subsequently read by `processResponse(n)`. -/
def fileCmd (cmd : Command) (p : List String)
    (dialErr : Option GoErr) (files : FileOracle)
    (input : List (List Char)) : CallResult :=
  match p with
  | [] => ⟨[], some .pathRequired, []⟩
  | p0 :: _ =>
    if p0 = "" then ⟨[], some .pathRequired, []⟩
    else
      match dialErr with
      | some e => ⟨[], some e, [.dial]⟩
      | none =>
        let (wr, werr) :=
          if cmd = .ScanStream then streamScanEv files p
          else if cmd = .ScanFile then (fileScanEv p, none)
          else ([], none)
        match werr with
        | some e => ⟨[], some e, .dial :: wr⟩
        | none =>
          let (r, err) := processResponse p.length input
          ⟨r, err, .dial :: wr⟩

/-- Wrapper `ScanFile(f)` = `fileCmd(ScanFile, f)`. -/
def ScanFileOp (f : String) (dialErr : Option GoErr) (files : FileOracle)
    (input : List (List Char)) : CallResult :=
  fileCmd .ScanFile [f] dialErr files input

/-- Wrapper `ScanFiles(f...)` = `fileCmd(ScanFile, f...)`. -/
def ScanFilesOp (f : List String) (dialErr : Option GoErr)
    (files : FileOracle) (input : List (List Char)) : CallResult :=
  fileCmd .ScanFile f dialErr files input

/-- Wrapper `ScanStream(f...)` = `fileCmd(ScanStream, f...)`. -/
def ScanStreamOp (f : List String) (dialErr : Option GoErr)
    (files : FileOracle) (input : List (List Char)) : CallResult :=
  fileCmd .ScanStream f dialErr files input

/-! ### `readerCmd` -/

/-- The dynamic type cases of the `switch v := i.(type)` in `readerCmd`:
the three in-memory kinds, an open file (whose `Stat` may fail), and any
other `io.Reader`. -/
inductive Reader where
  | buffer (data : List Char)
  | bytesReader (data : List Char)
  | stringsReader (data : List Char)
  | file (stat : Except GoErr Nat) (data : List Char)
  | other

/-- Content-length determination of `readerCmd`'s type switch. -/
def contentLen : Reader → Except GoErr Nat
  | .buffer data => .ok data.length
  | .bytesReader data => .ok data.length
  | .stringsReader data => .ok data.length
  | .file stat _ => stat
  | .other => .error .contentLength

/-- Bytes `io.Copy` pushes for each reader kind (unused for `.other`,
which is rejected before any write). -/
def readerData : Reader → List Char
  | .buffer data => data
  | .bytesReader data => data
  | .stringsReader data => data
  | .file _ data => data
  | .other => []

/-- Embedding of `readerCmd(i)` on a fresh client: dial, then the type
switch; an undeterminable length returns the contract-violation error
before anything is written; otherwise the header
`SCAN STREAM stream SIZE <clen>` and the payload are written and one
response is read (`processResponse(1)`). -/
def readerCmd (i : Reader) (dialErr : Option GoErr)
    (input : List (List Char)) : CallResult :=
  match dialErr with
  | some e => ⟨[], some e, [.dial]⟩
  | none =>
    match contentLen i with
    | .error e => ⟨[], some e, [.dial]⟩
    | .ok clen =>
      let evs := [NetEv.dial,
        printfLine (Command.ScanStream.wire ++ chars " stream SIZE " ++
          decimal clen),
        .write (readerData i)]
      let (r, err) := processResponse 1 input
      ⟨r, err, evs⟩

/-! ### `NewClient` and `dial` -/

/-- Default durations of the source, in nanoseconds (`time.Duration`). -/
def defaultTimeout : Nat := 15 * 1000000000

def defaultSleep : Nat := 1 * 1000000000

def defaultCmdTimeout : Nat := 60 * 1000000000

/-- The configuration part of the `Client` struct built by `NewClient`. -/
structure ClientCfg where
  address : String
  connTimeout : Nat
  connRetries : Nat
  connSleep : Nat
  cmdTimeout : Nat
  deriving DecidableEq, Repr

/-- Occurrences of `:` in an address (`strings.Count` with a one-char
substring). -/
def countColons (address : String) : Nat :=
  (address.toList.filter (· = ':')).length

/-- Embedding of `NewClient(address)`: the empty address is replaced by
the default `127.0.0.1:10200`; any other address must contain exactly one
colon (`strings.Contains` / `strings.Count` check), else the
invalid-address error is returned before any network activity. -/
def NewClient (address : String) : Except GoErr ClientCfg :=
  if address = "" then
    .ok ⟨"127.0.0.1:10200", defaultTimeout, 0, defaultSleep, defaultCmdTimeout⟩
  else if ¬ (address.toList.contains ':') ∨ countColons address > 1 then
    .error .invalidAddress
  else
    .ok ⟨address, defaultTimeout, 0, defaultSleep, defaultCmdTimeout⟩

/-- Embedding of `SetConnRetries`: negative values are clamped to zero,
which is why `connRetries` is a `Nat` in this model. -/
def SetConnRetries (s : Int) : Nat := if s < 0 then 0 else s.toNat

/-- Outcome of one `d.Dial` attempt: success, a `net.Error` whose
`Timeout()` is true, or any other failure. -/
inductive DialRes where
  | ok
  | timeout
  | failOther
  deriving DecidableEq, Repr

/-- Observable steps of the dial loop; each `sleep` lasts `connSleep`. -/
inductive DialEv where
  | attempt
  | sleep (d : Nat)
  deriving DecidableEq, Repr

/-- One iteration layer of the `for i := 0; i <= c.connRetries; i++`
loop of `dial()`: `remaining = connRetries + 1 - i` iterations are left.
A timeout sleeps `connSleep` and continues (even on the last iteration,
whose sleep trails the loop); anything else breaks immediately.  When the
loop condition ends the iteration, the result is the last (timeout)
attempt's outcome. -/
def dialIter (oracle : Nat → DialRes) (connSleep : Nat) :
    Nat → Nat → DialRes × List DialEv
  | _, 0 => (.timeout, [])
  | i, remaining + 1 =>
    let res := oracle i
    if res = .timeout then
      match remaining with
      | 0 => (res, [.attempt, .sleep connSleep])
      | r + 1 =>
        let (fin, evs) := dialIter oracle connSleep (i + 1) (r + 1)
        (fin, .attempt :: .sleep connSleep :: evs)
    else (res, [.attempt])

/-- Embedding of `dial()`: at most `connRetries + 1` attempts, indexed
from 0; `oracle i` is the outcome of attempt `i`. -/
def dial (oracle : Nat → DialRes) (connRetries connSleep : Nat) :
    DialRes × List DialEv :=
  dialIter oracle connSleep 0 (connRetries + 1)

/-! ### `Info` -/

/-- The `Info` struct of the source (server handshake record). -/
structure Info where
  Version : List Char
  Engine : List Char
  Protocol : List Char
  Signature : List Char
  Uptime : List Char
  deriving DecidableEq, Repr

/-- Zero value of `Info` (all fields empty), returned on error. -/
def zeroInfo : Info := ⟨[], [], [], [], []⟩

/-- Embedding of `Info()`.  `basicCmd(Help)` either fails (connection,
write, or read failure — including a missing blank terminator line) or
yields the handshake line; on success `helpRe` is applied and a non-match
is the invalid-response error, leaving the record at its zero value. -/
def InfoOp (handshake : Except GoErr (List Char)) : Info × Option GoErr :=
  match handshake with
  | .error e => (zeroInfo, some e)
  | .ok s =>
    match reMatch helpRe s with
    | none => (zeroInfo, some (.invalidHelp s))
    | some ms =>
      ({ Version := capStr ms 1
         Engine := capStr ms 2
         Protocol := capStr ms 3
         Signature := capStr ms 4
         Uptime := capStr ms 5 }, none)

/-! ### Derived notions used to state the claims -/

/-- Outcome of one line as an optional `Response`. -/
def parsedLine (l : List Char) : Option Response := (lineVerdict l).toOption

/-- Decidable well-formedness of one response line: the grammar matches
and the status-code token converts. -/
def lineOk (l : List Char) : Bool :=
  match lineVerdict l with
  | .ok _ => true
  | .error _ => false

/-- Cumulative effect of storing a run of parsed responses into the
result slice, starting from slice `r` and flag `seen` (the `r[0]`
overwrite happens on the first stored response only). -/
def pushAll (r : List (Option Response)) (seen : Bool) :
    List Response → List (Option Response)
  | [] => r
  | x :: xs => pushAll (if seen then r ++ [some x] else r.set 0 (some x)) true xs

/-- Cumulative effect of the soft-error latch over a run of parsed
responses. -/
def foldGerr (gerr : Option GoErr) : List Response → Option GoErr
  | [] => gerr
  | x :: xs =>
    foldGerr (if x.StatusCode &&& softMask ≠ 0 then
                (if gerr = none then some (.softError x.Status) else gerr)
              else gerr) xs

/-- The soft-error summary of a response run: the "ERROR: %s" error of
the first response whose bitmask intersects `softMask`, if any. -/
def firstSoft : List Response → Option GoErr
  | [] => none
  | x :: xs =>
    if x.StatusCode &&& softMask ≠ 0 then some (.softError x.Status)
    else firstSoft xs

/-- What the result slice looks like when `rs` were stored into the
initial `make([]*Response, 1)` slice: the placeholder `nil` survives only
when nothing was stored. -/
def goSlice (rs : List Response) : List (Option Response) :=
  if rs = [] then [none] else rs.map some

/-! ### Loop lemmas for `processResponse` -/

theorem pushAll_true (xs : List Response) :
    ∀ r, pushAll r true xs = r ++ xs.map some := by
  induction xs with
  | nil => intro r; simp [pushAll]
  | cons x xs ih => intro r; simp [pushAll, ih]

theorem pushAll_init (xs : List Response) :
    pushAll [none] false xs = goSlice xs := by
  cases xs with
  | nil => rfl
  | cons x xs => simp [pushAll, goSlice, pushAll_true, List.set]

theorem foldGerr_some (xs : List Response) (e : GoErr) :
    foldGerr (some e) xs = some e := by
  induction xs with
  | nil => rfl
  | cons x xs ih => simp [foldGerr, ih]

theorem foldGerr_none (xs : List Response) :
    foldGerr none xs = firstSoft xs := by
  cases xs with
  | nil => rfl
  | cons x xs =>
    by_cases h : x.StatusCode &&& softMask ≠ 0
    · simp [foldGerr, firstSoft, h, foldGerr_some]
    · simp [foldGerr, firstSoft, h]
      exact foldGerr_none xs

theorem lineOk_iff (l : List Char) :
    lineOk l = true ↔ ∃ rs, lineVerdict l = .ok rs := by
  unfold lineOk
  cases h : lineVerdict l <;> simp

theorem parsedLine_ok {l : List Char} {rs : Response}
    (h : lineVerdict l = .ok rs) : parsedLine l = some rs := by
  simp [parsedLine, h, Except.toOption]

/-- Closed form of the loop when every line read parses: the parsed
responses are pushed in order and the soft-error latch folds over them. -/
theorem prLoop_ok (input : List (List Char)) :
    ∀ n r seen gerr, (∀ l ∈ input.take n, lineOk l) →
    prLoop n input r seen gerr =
      (pushAll r seen ((input.take n).filterMap parsedLine),
       foldGerr gerr ((input.take n).filterMap parsedLine)) := by
  induction input with
  | nil =>
    intro n r seen gerr _
    cases n <;> simp [prLoop, pushAll, foldGerr]
  | cons l rest ih =>
    intro n r seen gerr h
    cases n with
    | zero => simp [prLoop, pushAll, foldGerr]
    | succ n =>
      have hl : lineOk l = true := h l (by simp)
      obtain ⟨rs, hrs⟩ := (lineOk_iff l).mp hl
      have hrest : ∀ x ∈ rest.take n, lineOk x := by
        intro x hx
        exact h x (by simp [List.take]; exact Or.inr hx)
      simp only [prLoop, hrs, List.take, List.filterMap_cons,
        parsedLine_ok hrs]
      rw [ih n _ true _ hrest]
      simp [pushAll, foldGerr]

/-- Closed form of the loop when it meets a failing line after a
well-formed prefix: a grammar non-match breaks out (the constructed
error is then overwritten by `err = gerr`), an `Atoi` failure returns
with its error; in both cases the responses parsed so far stay in the
slice. -/
theorem prLoop_break (l : List Char) (rest : List (List Char))
    (pre : List (List Char)) :
    ∀ n r seen gerr, (∀ x ∈ pre, lineOk x) → pre.length < n →
    ((lineVerdict l = .error .nomatch →
      prLoop n (pre ++ l :: rest) r seen gerr =
        (pushAll r seen (pre.filterMap parsedLine),
         foldGerr gerr (pre.filterMap parsedLine))) ∧
     (lineVerdict l = .error .badAtoi →
      prLoop n (pre ++ l :: rest) r seen gerr =
        (pushAll r seen (pre.filterMap parsedLine), some .atoiOverflow))) := by
  induction pre with
  | nil =>
    intro n r seen gerr _ hn
    cases n with
    | zero => omega
    | succ n =>
      constructor
      · intro hv; simp [prLoop, hv, pushAll, foldGerr]
      · intro hv; simp [prLoop, hv, pushAll]
  | cons x pre ih =>
    intro n r seen gerr h hn
    cases n with
    | zero => simp at hn
    | succ n =>
      have hx : lineOk x = true := h x (by simp)
      obtain ⟨rs, hrs⟩ := (lineOk_iff x).mp hx
      have hpre : ∀ y ∈ pre, lineOk y := fun y hy => h y (by simp [hy])
      have hn' : pre.length < n := by simpa using hn
      have := ih n
        (if seen then r ++ [some rs] else r.set 0 (some rs)) true
        (if rs.StatusCode &&& softMask ≠ 0 then
          (if gerr = none then some (.softError rs.Status) else gerr)
         else gerr) hpre hn'
      constructor
      · intro hv
        simp only [List.cons_append, prLoop, hrs, List.filterMap_cons,
          parsedLine_ok hrs, List.append_eq]
        rw [this.1 hv]
        simp [pushAll, foldGerr]
      · intro hv
        simp only [List.cons_append, prLoop, hrs, List.filterMap_cons,
          parsedLine_ok hrs, List.append_eq]
        rw [this.2 hv]
        simp [pushAll]

theorem lineVerdict_infected {l : List Char} {rs : Response}
    (h : lineVerdict l = .ok rs) :
    rs.Infected = true ↔ rs.StatusCode &&& infMask ≠ 0 := by
  unfold lineVerdict at h
  cases hm : reMatch responseRe (trimNl l) with
  | none => rw [hm] at h; exact absurd h (by simp)
  | some caps =>
    rw [hm] at h
    dsimp only at h
    cases ha : atoi (capStr caps 1) with
    | error e => rw [ha] at h; exact absurd h (by simp)
    | ok sc =>
      rw [ha] at h
      dsimp only at h
      simp only [Except.ok.injEq] at h
      by_cases hb : sc &&& infMask ≠ 0
      · rw [if_pos hb] at h; subst h; simpa using hb
      · rw [if_neg hb] at h; subst h; simpa using hb

/-- Every entry of the loop's result slice is either an entry of the
starting slice or a parsed response, so the `Infected` invariant is
preserved. -/
theorem prLoop_infected_inv (input : List (List Char)) :
    ∀ (n : Nat) (r : List (Option Response)) (seen : Bool)
      (gerr : Option GoErr),
    (∀ or ∈ r, ∀ x : Response, or = some x →
      (x.Infected = true ↔ x.StatusCode &&& infMask ≠ 0)) →
    ∀ or ∈ (prLoop n input r seen gerr).1, ∀ x : Response, or = some x →
      (x.Infected = true ↔ x.StatusCode &&& infMask ≠ 0) := by
  induction input with
  | nil =>
    intro n r seen gerr hr
    cases n <;> simpa [prLoop] using hr
  | cons l rest ih =>
    intro n r seen gerr hr
    cases n with
    | zero => simpa [prLoop] using hr
    | succ n =>
      cases hv : lineVerdict l with
      | error f =>
        cases f <;> simpa [prLoop, hv] using hr
      | ok rs =>
        simp only [prLoop, hv]
        apply ih
        intro or hor x hx
        have hrs := lineVerdict_infected hv
        by_cases hs : seen
        · rw [if_pos hs] at hor
          rcases List.mem_append.mp hor with hor | hor
          · exact hr or hor x hx
          · simp at hor
            subst hor
            cases hx
            exact hrs
        · rw [if_neg hs] at hor
          rcases List.mem_or_eq_of_mem_set hor with hor | hor
          · exact hr or hor x hx
          · subst hor
            cases hx
            exact hrs

/-- With every line well-formed, the parsed responses are in bijective
order-preserving correspondence with the lines. -/
theorem filterMap_parsed_ok (input : List (List Char))
    (h : ∀ l ∈ input, lineOk l) :
    (input.filterMap parsedLine).map some = input.map parsedLine ∧
    (input.filterMap parsedLine).length = input.length := by
  induction input with
  | nil => simp
  | cons l rest ih =>
    obtain ⟨rs, hrs⟩ := (lineOk_iff l).mp (h l (by simp))
    have := ih (fun x hx => h x (by simp [hx]))
    simp [parsedLine_ok hrs, this.1, this.2]

/-- C1: every `Response` produced by `processResponse` has `Infected`
true exactly when its `StatusCode` bitmask meets
`Infected|DisinfectError|HeuristicMatch` (that is `infMask = 1|128|2`);
for every other bitmask `Infected` is false. -/
theorem C1_infected_iff (n : Nat) (input : List (List Char))
    (or : Option Response) (hmem : or ∈ (processResponse n input).1)
    (x : Response) (hx : or = some x) :
    x.Infected = true ↔ x.StatusCode &&& infMask ≠ 0 := by
  refine prLoop_infected_inv input n [none] false none ?_ or hmem x hx
  intro or hor x hx
  simp at hor
  subst hor
  exact absurd hx (by simp)

/-- Witness for C1 at a concrete infected response line. -/
theorem C1_infected_iff_witness :
    (⟨chars "/tmp/eicar.txt", [], chars "EICAR_Test_File", chars "infected",
      1, true, chars "1 <infected: EICAR_Test_File> /tmp/eicar.txt"⟩ :
        Response).Infected = true :=
  (C1_infected_iff 1 [chars "1 <infected: EICAR_Test_File> /tmp/eicar.txt\n"]
    (some ⟨chars "/tmp/eicar.txt", [], chars "EICAR_Test_File",
      chars "infected", 1, true,
      chars "1 <infected: EICAR_Test_File> /tmp/eicar.txt"⟩)
    (by decide) _ rfl).mpr (by decide)

/-- C2: when the expected count equals the number of lines sent and every
line is well-formed, `processResponse` yields exactly that many entries,
one per line, in the order the lines were read. -/
theorem C2_batch_order (input : List (List Char))
    (h1 : 1 ≤ input.length) (h2 : ∀ l ∈ input, lineOk l) :
    (processResponse input.length input).1 = input.map parsedLine ∧
    (processResponse input.length input).1.length = input.length := by
  have htake : input.take input.length = input := List.take_length input
  have key := prLoop_ok input input.length [none] false none
    (by rw [htake]; exact h2)
  unfold processResponse
  rw [key, htake, pushAll_init]
  have hfm := filterMap_parsed_ok input h2
  have hne : input.filterMap parsedLine ≠ [] := by
    intro h0
    have h00 : input.length = 0 := by rw [← hfm.2, h0]; rfl
    omega
  unfold goSlice
  rw [if_neg hne, hfm.1]
  simp

/-- Witness for C2 on a concrete two-line batch. -/
theorem C2_batch_order_witness :
    (processResponse 2
      [chars "0 <clean> a\n", chars "1 <infected: X> b\n"]).1 =
      [chars "0 <clean> a\n", chars "1 <infected: X> b\n"].map parsedLine :=
  (C2_batch_order [chars "0 <clean> a\n", chars "1 <infected: X> b\n"]
    (by decide) (by decide)).1

/-- Counterexample to C3 as stated: a line failing the grammar does not
produce a malformed-response error — the error constructed at the
non-match is overwritten by `err = gerr` after the loop, so with no prior
soft error the call reports success; and with a prior soft-error
response, the already-parsed responses are returned alongside that soft
error instead of being discarded. -/
theorem C3_counterexample :
    processResponse 1 [chars "garbage\n"] = ([none], none) ∧
    processResponse 2 [chars "4 <skip> f\n", chars "garbage\n"] =
      ([some ⟨chars "f", [], [], chars "skip", 4, false,
         chars "4 <skip> f"⟩],
       some (.softError (chars "skip"))) := by
  constructor
  · rfl
  · rfl

/-- C3 (amended): a grammar non-match stops the read loop, but the
returned error is the soft-error summary of the prefix (nil when none) —
the malformed-response error is overwritten — and the already-parsed
responses are returned; an unconvertible status-code token returns the
fatal `Atoi` error, again together with the already-parsed responses. -/
theorem C3_amended (n : Nat) (pre : List (List Char)) (l : List Char)
    (rest : List (List Char)) (hok : ∀ x ∈ pre, lineOk x)
    (hn : pre.length < n) :
    (reMatch responseRe (trimNl l) = none →
      processResponse n (pre ++ l :: rest) =
        (goSlice (pre.filterMap parsedLine),
         firstSoft (pre.filterMap parsedLine))) ∧
    (∀ caps, reMatch responseRe (trimNl l) = some caps →
      atoi (capStr caps 1) = .error () →
      processResponse n (pre ++ l :: rest) =
        (goSlice (pre.filterMap parsedLine), some .atoiOverflow)) := by
  have hb := prLoop_break l rest pre n [none] false none hok hn
  constructor
  · intro hm
    have hv : lineVerdict l = .error .nomatch := by
      unfold lineVerdict
      rw [hm]
    unfold processResponse
    rw [hb.1 hv, pushAll_init, foldGerr_none]
  · intro caps hm ha
    have hv : lineVerdict l = .error .badAtoi := by
      unfold lineVerdict
      rw [hm]
      dsimp only
      rw [ha]
    unfold processResponse
    rw [hb.2 hv, pushAll_init]

/-- Witness for the amended C3: a soft-error response followed by a
malformed line. -/
theorem C3_amended_witness :
    processResponse 2 [chars "64 <skipped> g\n", chars "!!\n"] =
      ([some ⟨chars "g", [], [], chars "skipped", 64, false,
         chars "64 <skipped> g"⟩],
       some (.softError (chars "skipped"))) :=
  (((C3_amended 2 [chars "64 <skipped> g\n"] (chars "!!\n") []
      (by decide) (by decide)).1) (by decide)).trans (by decide)

/-- C4: when every line read parses, the returned error is the
soft-error summary of the first response (in submission order) whose
bitmask meets `softMask`; later soft errors do not change it, the full
ordered sequence is still returned, and with no soft bits anywhere the
error is nil — all expressed by `firstSoft`. -/
theorem C4_first_soft (n : Nat) (input : List (List Char))
    (h : ∀ l ∈ input.take n, lineOk l) :
    (processResponse n input).2 =
      firstSoft ((input.take n).filterMap parsedLine) ∧
    (input.take n ≠ [] →
      (processResponse n input).1 =
        ((input.take n).filterMap parsedLine).map some) := by
  have key := prLoop_ok input n [none] false none h
  unfold processResponse
  rw [key]
  refine ⟨foldGerr_none _, fun hne => ?_⟩
  rw [pushAll_init]
  have hfm := filterMap_parsed_ok (input.take n) h
  have hlen : (input.take n).length ≠ 0 :=
    fun h0 => hne (List.length_eq_zero.mp h0)
  have hne' : (input.take n).filterMap parsedLine ≠ [] := by
    intro h0
    exact hlen (by rw [← hfm.2, h0]; rfl)
  unfold goSlice
  rw [if_neg hne']

/-- Witness for C4: the first of two soft-error responses determines the
error. -/
theorem C4_first_soft_witness :
    (processResponse 2
      [chars "8 <restricted> a\n", chars "16 <syserr> b\n"]).2 =
      some (.softError (chars "restricted")) :=
  ((C4_first_soft 2 [chars "8 <restricted> a\n", chars "16 <syserr> b\n"]
    (by decide)).1).trans (by decide)

/-- C5: a path list that is empty or holds no non-empty path makes
`fileCmd` (hence `ScanFile`, `ScanFiles`, `ScanStream`) return the
invalid-argument error with no network activity at all — no dial, no
write; in particular any list whose first element is the empty string is
rejected the same way. -/
theorem C5_empty_paths (cmd : Command) (p : List String)
    (dialErr : Option GoErr) (files : FileOracle)
    (input : List (List Char)) :
    ((p = [] ∨ ∀ s ∈ p, s = "") →
      fileCmd cmd p dialErr files input = ⟨[], some .pathRequired, []⟩) ∧
    (∀ rest : List String,
      fileCmd cmd ("" :: rest) dialErr files input =
        ⟨[], some .pathRequired, []⟩) := by
  constructor
  · intro h
    cases p with
    | nil => rfl
    | cons p0 ps =>
      have hp0 : p0 = "" := by
        rcases h with h | h
        · exact absurd h (by simp)
        · exact h p0 (by simp)
      simp [fileCmd, hp0]
  · intro rest
    simp [fileCmd]

/-- Witness for C5 on an all-empty path list. -/
theorem C5_empty_paths_witness :
    fileCmd .ScanFile ["", ""] none (fun _ => none) [] =
      ⟨[], some .pathRequired, []⟩ :=
  (C5_empty_paths .ScanFile ["", ""] none (fun _ => none) []).1
    (Or.inr (by decide))

/-- Counterexample to C6 as stated: the empty address contains zero
colons, yet `NewClient` does not reject it — it substitutes the default
`127.0.0.1:10200`. -/
theorem C6_counterexample :
    countColons "" = 0 ∧
    NewClient "" =
      .ok ⟨"127.0.0.1:10200", defaultTimeout, 0, defaultSleep,
        defaultCmdTimeout⟩ := by
  constructor
  · rfl
  · rfl

theorem contains_colon_iff (address : String) :
    address.toList.contains ':' = true ↔ countColons address ≠ 0 := by
  unfold countColons
  rw [List.contains_iff_exists_mem_beq]
  constructor
  · rintro ⟨x, hx, hbeq⟩
    have hx2 : x = ':' := (beq_iff_eq.mp hbeq).symm
    subst hx2
    intro h0
    rw [List.length_eq_zero] at h0
    have hmem : ':' ∈ address.toList.filter (fun c => c = ':') :=
      List.mem_filter.mpr ⟨hx, by simp⟩
    rw [h0] at hmem
    simp at hmem
  · intro hne
    obtain ⟨x, hx⟩ :=
      List.exists_mem_of_length_pos (Nat.pos_of_ne_zero hne)
    have hm := List.mem_filter.mp hx
    have hx2 : x = ':' := by simpa using hm.2
    exact ⟨x, hm.1, by simp [hx2]⟩

/-- C6 (amended): for every *non-empty* address string, `NewClient`
rejects zero colons or more than one colon with the configuration error
before any network call, and with exactly one colon returns a client
carrying that address; the empty string is instead replaced by the
default address. -/
theorem C6_amended (address : String) (hne : address ≠ "") :
    ((countColons address = 0 ∨ 1 < countColons address) →
      NewClient address = .error .invalidAddress) ∧
    (countColons address = 1 →
      NewClient address =
        .ok ⟨address, defaultTimeout, 0, defaultSleep,
          defaultCmdTimeout⟩) := by
  constructor
  · intro h
    unfold NewClient
    rw [if_neg hne, if_pos]
    rcases h with h | h
    · exact Or.inl (fun hc => (contains_colon_iff address).mp hc h)
    · exact Or.inr h
  · intro h1
    unfold NewClient
    rw [if_neg hne, if_neg]
    push_neg
    exact ⟨(contains_colon_iff address).mpr (by omega), by omega⟩

/-- Witness for the amended C6: the unbracketed IPv6 literal of the spec
(two colons) is rejected at construction time. -/
theorem C6_amended_witness :
    NewClient "fe80::1%en0" = .error .invalidAddress :=
  (C6_amended "fe80::1%en0" (by decide)).1 (Or.inr (by decide))

theorem dialIter_one (oracle : Nat → DialRes) (slp i : Nat) :
    dialIter oracle slp i 1 =
      if oracle i = .timeout then
        (oracle i, [DialEv.attempt, DialEv.sleep slp])
      else (oracle i, [DialEv.attempt]) := rfl

theorem dialIter_two (oracle : Nat → DialRes) (slp i r : Nat) :
    dialIter oracle slp i (r + 2) =
      if oracle i = .timeout then
        match dialIter oracle slp (i + 1) (r + 1) with
        | (fin, evs) => (fin, DialEv.attempt :: DialEv.sleep slp :: evs)
      else (oracle i, [DialEv.attempt]) := rfl

theorem dialIter_all_timeout (oracle : Nat → DialRes) (slp : Nat) :
    ∀ rem i, (∀ j, i ≤ j → j ≤ i + rem → oracle j = .timeout) →
    dialIter oracle slp i (rem + 1) =
      (.timeout,
       (List.replicate (rem + 1) [DialEv.attempt, DialEv.sleep slp]).flatten) := by
  intro rem
  induction rem with
  | zero =>
    intro i h
    have h0 : oracle i = .timeout := h i (le_refl i) (by omega)
    rw [dialIter_one, if_pos h0, h0]
    rfl
  | succ rem ih =>
    intro i h
    have h0 : oracle i = .timeout := h i (le_refl i) (by omega)
    have hrec := ih (i + 1) (fun j h1 h2 => h j (by omega) (by omega))
    rw [dialIter_two, if_pos h0, hrec]
    simp [List.replicate_succ]

theorem dialIter_stops (oracle : Nat → DialRes) (slp : Nat) :
    ∀ (m i rem : Nat), m ≤ rem →
    (∀ j, j < m → oracle (i + j) = .timeout) →
    oracle (i + m) ≠ .timeout →
    dialIter oracle slp i (rem + 1) =
      (oracle (i + m),
       (List.replicate m [DialEv.attempt, DialEv.sleep slp]).flatten ++
         [DialEv.attempt]) := by
  intro m
  induction m with
  | zero =>
    intro i rem _ _ hstop
    simp only [Nat.add_zero] at hstop
    cases rem with
    | zero => rw [dialIter_one, if_neg hstop]; simp
    | succ r => rw [dialIter_two, if_neg hstop]; simp
  | succ m ih =>
    intro i rem hm htime hstop
    have h0 : oracle i = .timeout := by simpa using htime 0 (by omega)
    obtain ⟨rem', hrem⟩ : ∃ rem', rem = rem' + 1 :=
      ⟨rem - 1, by omega⟩
    subst hrem
    have := ih (i + 1) rem' (by omega)
      (fun j hj => by
        have := htime (j + 1) (by omega)
        simpa [Nat.add_assoc, Nat.add_comm 1 j] using this)
      (by
        have heq : i + 1 + m = i + (m + 1) := by omega
        rw [heq]
        exact hstop)
    rw [dialIter_two, if_pos h0, this]
    have heq : i + 1 + m = i + (m + 1) := by omega
    rw [heq]
    simp [List.replicate_succ]

/-- C7: a timing-out dial attempt is retried until `connRetries`
additional attempts have been made, each attempt followed by a
`connSleep` sleep, and the loop then reports the timeout; the first
non-timeout outcome (success or other error) at attempt `m ≤ connRetries`
terminates the loop immediately after `m + 1` attempts with `m` sleeps in
between. -/
theorem C7_dial_retry (oracle : Nat → DialRes) (retries slp : Nat) :
    ((∀ i, i ≤ retries → oracle i = .timeout) →
      dial oracle retries slp =
        (.timeout,
         (List.replicate (retries + 1)
           [DialEv.attempt, DialEv.sleep slp]).flatten)) ∧
    (∀ m, m ≤ retries → (∀ j, j < m → oracle j = .timeout) →
      oracle m ≠ .timeout →
      dial oracle retries slp =
        (oracle m,
         (List.replicate m [DialEv.attempt, DialEv.sleep slp]).flatten ++
           [DialEv.attempt])) := by
  constructor
  · intro h
    unfold dial
    exact dialIter_all_timeout oracle slp retries 0
      (fun j h1 h2 => h j (by omega))
  · intro m hm htime hstop
    unfold dial
    have := dialIter_stops oracle slp m 0 retries hm
      (fun j hj => by simpa using htime j hj)
      (by simpa using hstop)
    simpa using this

/-- Witness for C7: one timeout, then a non-timeout failure stops the
loop after two attempts and one sleep. -/
theorem C7_dial_retry_witness :
    dial (fun i => if i = 0 then .timeout else .failOther) 3 7 =
      (.failOther, [DialEv.attempt, DialEv.sleep 7, DialEv.attempt]) := by
  have := (C7_dial_retry (fun i => if i = 0 then .timeout else .failOther)
    3 7).2 1 (by omega)
    (fun j hj => by
      have hj0 : j = 0 := by omega
      subst hj0
      rfl)
    (by decide)
  simpa using this

/-- C8: `Info` applies the HELP grammar `helpRe` to the handshake line;
a match yields an `Info` record whose five fields are exactly the five
captured tokens, and a non-match yields the invalid-response error with
the zero `Info`. -/
theorem C8_info_parse (s : List Char) :
    (∀ ms, reMatch helpRe s = some ms →
      InfoOp (.ok s) =
        ({ Version := capStr ms 1, Engine := capStr ms 2,
           Protocol := capStr ms 3, Signature := capStr ms 4,
           Uptime := capStr ms 5 }, none)) ∧
    (reMatch helpRe s = none →
      InfoOp (.ok s) = (zeroInfo, some (.invalidHelp s))) := by
  constructor
  · intro ms hm
    simp [InfoOp, hm]
  · intro hm
    simp [InfoOp, hm]

/-- Witness for C8: the spec's handshake example parses into its five
tokens, and a non-matching line is the invalid-response error. -/
theorem C8_info_parse_witness :
    InfoOp (.ok (chars
      "FPSCAND:1.0 ENGINE:4.0 PROTOCOL:1 SIGNATURE:100 UPTIME:3600")) =
      (⟨chars "1.0", chars "4.0", chars "1", chars "100",
        chars "3600"⟩, none) ∧
    InfoOp (.ok (chars "FOO")) =
      (zeroInfo, some (.invalidHelp (chars "FOO"))) := by
  constructor
  · exact ((C8_info_parse _).1
      ⟨some (chars "1.0"), some (chars "4.0"), some (chars "1"),
       some (chars "100"), some (chars "3600")⟩ (by decide)).trans
      (by decide)
  · exact (C8_info_parse _).2 (by decide)

/-- C9: a reader that is none of the length-determinable kinds makes
`readerCmd` return the contract-violation error, and the scan command is
never written to the connection (no write event at all, whatever the dial
outcome). -/
theorem C9_reader_reject (dialErr : Option GoErr)
    (input : List (List Char)) :
    (∀ d, NetEv.write d ∉ (readerCmd .other dialErr input).events) ∧
    (dialErr = none →
      readerCmd .other dialErr input =
        ⟨[], some .contentLength, [.dial]⟩) := by
  constructor
  · intro d
    cases dialErr <;> simp [readerCmd, contentLen]
  · intro h
    subst h
    rfl

/-- Witness for C9 with a successful dial. -/
theorem C9_reader_reject_witness :
    readerCmd .other none [] = ⟨[], some .contentLength, [.dial]⟩ :=
  (C9_reader_reject none []).2 rfl

/-- C10: on immediate EOF (no response line at all) `processResponse`
returns a nil error together with a one-element slice whose single entry
is a nil `Response` pointer, and `fileCmd`-based calls like `ScanFile`
hand exactly that `([nil], nil)` pair to the caller. -/
theorem C10_eof_nil_slice :
    (∀ n : Nat, processResponse n [] = ([none], none)) ∧
    (∀ files : FileOracle,
      (fileCmd .ScanFile ["f"] none files []).responses = [none] ∧
      (fileCmd .ScanFile ["f"] none files []).err = none) ∧
    (∀ data : List Char,
      (readerCmd (.buffer data) none []).responses = [none] ∧
      (readerCmd (.buffer data) none []).err = none) := by
  refine ⟨fun n => ?_, fun files => ⟨rfl, rfl⟩, fun data => ⟨rfl, rfl⟩⟩
  cases n <;> rfl

end Fprot

